import Mathlib

/-!
Verification of the Concurrent Profile Harvesting Pipeline
(`insta_scraper_enhanced.py`): a shallow embedding of the merge engine,
response classifier, scroll controller, rate limiter, progress store and
save logic, with proofs of the specified properties.
-/

namespace InstaScraper

/-- `TARGET_QUERIES["profile"]` from the source. -/
def TARGET_QUERIES_profile : String := "user"

/-- `TARGET_QUERIES["timeline"]` from the source. -/
def TARGET_QUERIES_timeline : String := "xdt_api__v1__feed__user_timeline_graphql_connection"

/-- One edge of a timeline page: `edge["node"]["id"]` plus the rest of the
node treated as an opaque payload. -/
structure TimelineEdge where
  nodeId : Nat
  payload : Nat
deriving DecidableEq, Repr

/-- The `for edge in new_edges` loop of `merge_timeline_data`: append each new
edge whose `node.id` is not already among the ids of the accumulated edges
(the ids of the accumulated list are exactly the contents of the Python
`existing_ids` set, which starts as the ids of `existing_edges` and receives
each appended edge's id). -/
def addNewEdges (existing : List TimelineEdge) : List TimelineEdge → List TimelineEdge
  | [] => existing
  | e :: rest =>
    if e.nodeId ∈ existing.map (fun x => x.nodeId) then
      addNewEdges existing rest
    else
      addNewEdges (existing ++ [e]) rest

/-- `merge_timeline_data(existing_data, new_data)`, at the level of the edges
lists: `None` existing data is replaced by the new page, `None` new data
leaves the accumulation unchanged, and otherwise new edges with unseen ids
are appended. -/
def merge_timeline_data : Option (List TimelineEdge) → Option (List TimelineEdge) → Option (List TimelineEdge)
  | none, nd => nd
  | some ed, none => some ed
  | some ed, some nd => some (addNewEdges ed nd)

/-- Merging a sequence of timeline pages, in order, into an initially empty
accumulation (`combined_data["reel_info"]` starts as `None` in
`scrape_profile`). -/
def mergePages (pages : List (List TimelineEdge)) : Option (List TimelineEdge) :=
  pages.foldl (fun acc p => merge_timeline_data acc (some p)) none

/-- Spec-side definition: keep each record whose id has not been seen before,
scanning left to right with an initial seen-set `seen`. -/
def dedupById (seen : List Nat) : List TimelineEdge → List TimelineEdge
  | [] => []
  | e :: rest =>
    if e.nodeId ∈ seen then dedupById seen rest
    else e :: dedupById (e.nodeId :: seen) rest

lemma dedupById_congr (l : List TimelineEdge) :
    ∀ s₁ s₂ : List Nat, (∀ x, x ∈ s₁ ↔ x ∈ s₂) → dedupById s₁ l = dedupById s₂ l := by
  induction l with
  | nil => intro s₁ s₂ _; rfl
  | cons e rest ih =>
    intro s₁ s₂ h
    by_cases he : e.nodeId ∈ s₁
    · rw [dedupById, dedupById, if_pos he, if_pos ((h e.nodeId).mp he), ih s₁ s₂ h]
    · have he₂ : e.nodeId ∉ s₂ := fun hx => he ((h e.nodeId).mpr hx)
      rw [dedupById, dedupById, if_neg he, if_neg he₂]
      have h' : ∀ x, x ∈ e.nodeId :: s₁ ↔ x ∈ e.nodeId :: s₂ := by
        intro x
        simp only [List.mem_cons]
        exact or_congr Iff.rfl (h x)
      rw [ih _ _ h']

lemma mem_map_dedupById (l : List TimelineEdge) :
    ∀ (s : List Nat) (x : Nat),
      x ∈ (dedupById s l).map (fun e => e.nodeId) ↔ x ∈ l.map (fun e => e.nodeId) ∧ x ∉ s := by
  induction l with
  | nil => intro s x; simp [dedupById]
  | cons e rest ih =>
    intro s x
    by_cases he : e.nodeId ∈ s
    · rw [dedupById, if_pos he]
      rw [ih s x]
      simp only [List.map_cons, List.mem_cons]
      constructor
      · rintro ⟨hx, hxs⟩; exact ⟨Or.inr hx, hxs⟩
      · rintro ⟨hx | hx, hxs⟩
        · exact absurd (hx ▸ he) hxs
        · exact ⟨hx, hxs⟩
    · rw [dedupById, if_neg he]
      simp only [List.map_cons, List.mem_cons]
      rw [ih (e.nodeId :: s) x]
      simp only [List.mem_cons]
      constructor
      · rintro (hx | ⟨hx, hxs⟩)
        · exact ⟨Or.inl hx, hx ▸ he⟩
        · exact ⟨Or.inr hx, fun hs => hxs (Or.inr hs)⟩
      · rintro ⟨hx | hx, hxs⟩
        · exact Or.inl hx
        · by_cases hxe : x = e.nodeId
          · exact Or.inl hxe
          · exact Or.inr ⟨hx, fun hs => (hs.elim hxe hxs : False)⟩

lemma addNewEdges_eq (nd : List TimelineEdge) :
    ∀ ed : List TimelineEdge,
      addNewEdges ed nd = ed ++ dedupById (ed.map (fun e => e.nodeId)) nd := by
  induction nd with
  | nil => intro ed; simp [addNewEdges, dedupById]
  | cons e rest ih =>
    intro ed
    by_cases he : e.nodeId ∈ ed.map (fun x => x.nodeId)
    · rw [addNewEdges, if_pos he, dedupById, if_pos he, ih ed]
    · rw [addNewEdges, if_neg he, dedupById, if_neg he, ih (ed ++ [e])]
      rw [List.append_cons ed e (dedupById (e.nodeId :: ed.map fun x => x.nodeId) rest)]
      congr 1
      apply dedupById_congr
      intro x
      simp only [List.map_append, List.map_cons, List.map_nil, List.mem_append,
        List.mem_cons, List.mem_singleton]
      tauto

lemma dedupById_append (l₁ l₂ : List TimelineEdge) :
    ∀ s : List Nat,
      dedupById s (l₁ ++ l₂)
        = dedupById s l₁ ++ dedupById (l₁.map (fun e => e.nodeId) ++ s) l₂ := by
  induction l₁ with
  | nil => intro s; simp [dedupById]
  | cons e rest ih =>
    intro s
    by_cases he : e.nodeId ∈ s
    · rw [List.cons_append, dedupById, if_pos he, dedupById, if_pos he, ih s]
      have hcongr : dedupById (rest.map (fun x => x.nodeId) ++ s) l₂
          = dedupById ((e :: rest).map (fun x => x.nodeId) ++ s) l₂ := by
        apply dedupById_congr
        intro x
        simp only [List.map_cons, List.cons_append, List.mem_cons, List.mem_append]
        constructor
        · exact fun hx => Or.inr hx
        · rintro (hx | hx)
          · exact Or.inr (hx ▸ he)
          · exact hx
      rw [hcongr]
    · rw [List.cons_append, dedupById, if_neg he, dedupById, if_neg he, ih (e.nodeId :: s)]
      rw [List.cons_append]
      have hcongr : dedupById (rest.map (fun x => x.nodeId) ++ e.nodeId :: s) l₂
          = dedupById ((e :: rest).map (fun x => x.nodeId) ++ s) l₂ := by
        apply dedupById_congr
        intro x
        simp only [List.map_cons, List.cons_append, List.mem_cons, List.mem_append]
        tauto
      rw [hcongr]

lemma mergePages_from_some (pages : List (List TimelineEdge)) :
    ∀ ed : List TimelineEdge,
      pages.foldl (fun acc p => merge_timeline_data acc (some p)) (some ed)
        = some (ed ++ dedupById (ed.map (fun e => e.nodeId)) pages.flatten) := by
  induction pages with
  | nil => intro ed; simp [dedupById]
  | cons p ps ih =>
    intro ed
    rw [List.foldl_cons]
    show ps.foldl (fun acc p => merge_timeline_data acc (some p)) (some (addNewEdges ed p)) = _
    rw [ih (addNewEdges ed p), addNewEdges_eq p ed]
    rw [List.flatten_cons, dedupById_append p ps.flatten (ed.map fun e => e.nodeId)]
    rw [← List.append_assoc]
    have hcongr : dedupById ((ed ++ dedupById (ed.map fun e => e.nodeId) p).map (fun e => e.nodeId)) ps.flatten
        = dedupById (p.map (fun e => e.nodeId) ++ ed.map (fun e => e.nodeId)) ps.flatten := by
      apply dedupById_congr
      intro x
      simp only [List.map_append, List.mem_append]
      rw [mem_map_dedupById p (ed.map fun e => e.nodeId) x]
      tauto
    rw [hcongr]

/-- If a list's ids avoid the seen-set and are themselves distinct, dedup
keeps the list unchanged. -/
lemma dedupById_eq_self (l : List TimelineEdge) :
    ∀ s : List Nat, (∀ x ∈ l.map (fun e => e.nodeId), x ∉ s) →
      (l.map (fun e => e.nodeId)).Nodup → dedupById s l = l := by
  induction l with
  | nil => intro s _ _; rfl
  | cons e rest ih =>
    intro s hs hnd
    have he : e.nodeId ∉ s := hs e.nodeId (by simp)
    rw [dedupById, if_neg he]
    congr 1
    apply ih
    · intro x hx
      simp only [List.mem_cons]
      rintro (hxe | hxs)
      · exact (List.nodup_cons.mp (by simpa using hnd)).1 (hxe ▸ hx)
      · exact hs x (by simp [hx]) hxs
    · exact (List.nodup_cons.mp (by simpa using hnd)).2

lemma nodup_map_dedupById (l : List TimelineEdge) :
    ∀ s : List Nat, ((dedupById s l).map (fun e => e.nodeId)).Nodup := by
  induction l with
  | nil => intro s; simp [dedupById]
  | cons e rest ih =>
    intro s
    by_cases he : e.nodeId ∈ s
    · rw [dedupById, if_pos he]; exact ih s
    · rw [dedupById, if_neg he]
      simp only [List.map_cons, List.nodup_cons]
      refine ⟨fun hx => ?_, ih (e.nodeId :: s)⟩
      have := (mem_map_dedupById rest (e.nodeId :: s) e.nodeId).mp hx
      exact this.2 (by simp)

/-- The number of records kept by dedup from an empty seen-set is the number
of distinct ids in the list. -/
lemma length_dedupById_nil (l : List TimelineEdge) :
    (dedupById [] l).length = ((l.map (fun e => e.nodeId)).toFinset).card := by
  have hlen : (dedupById [] l).length = ((dedupById [] l).map (fun e => e.nodeId)).length := by
    rw [List.length_map]
  rw [hlen]
  rw [← List.toFinset_card_of_nodup (nodup_map_dedupById l [])]
  congr 1
  ext x
  simp only [List.mem_toFinset]
  rw [mem_map_dedupById l [] x]
  simp

/-- Appending a page whose every id is already present changes nothing. -/
lemma addNewEdges_of_subset (nd : List TimelineEdge) :
    ∀ l : List TimelineEdge,
      (∀ e ∈ nd, e.nodeId ∈ l.map (fun x => x.nodeId)) → addNewEdges l nd = l := by
  induction nd with
  | nil => intro l _; rfl
  | cons e rest ih =>
    intro l h
    rw [addNewEdges, if_pos (h e (by simp))]
    exact ih l (fun x hx => h x (by simp [hx]))

/-- Every id of the merged-in page appears among the ids of the result of
`addNewEdges`. -/
lemma mem_ids_addNewEdges (nd ed : List TimelineEdge) :
    ∀ e ∈ nd, e.nodeId ∈ (addNewEdges ed nd).map (fun x => x.nodeId) := by
  intro e he
  rw [addNewEdges_eq nd ed]
  simp only [List.map_append, List.mem_append]
  by_cases hed : e.nodeId ∈ ed.map (fun x => x.nodeId)
  · exact Or.inl hed
  · right
    rw [mem_map_dedupById nd (ed.map fun x => x.nodeId) e.nodeId]
    exact ⟨List.mem_map_of_mem _ he, hed⟩

/-- C2: merging the same timeline page a second time is a no-op: the edges
list (hence the record count) of `merge_timeline_data (merge_timeline_data a p) p`
equals that of `merge_timeline_data a p`, for every accumulation `a` and
page `p`. -/
theorem merge_timeline_data_idempotent (a p : Option (List TimelineEdge)) :
    merge_timeline_data (merge_timeline_data a p) p = merge_timeline_data a p := by
  cases p with
  | none => cases a <;> rfl
  | some nd =>
    cases a with
    | none =>
      show merge_timeline_data (some nd) (some nd) = some nd
      show some (addNewEdges nd nd) = some nd
      rw [addNewEdges_of_subset nd nd (fun e he => List.mem_map_of_mem _ he)]
    | some ed =>
      show some (addNewEdges (addNewEdges ed nd) nd) = some (addNewEdges ed nd)
      rw [addNewEdges_of_subset nd (addNewEdges ed nd) (mem_ids_addNewEdges nd ed)]

/-- C1: folding any nonempty sequence of well-formed timeline pages through
`merge_timeline_data` yields exactly the concatenation of the pages' edges
with every record whose id was already seen removed (first-seen order), and
the final record count is the number of distinct ids across all pages. -/
theorem mergePages_dedups (pages : List (List TimelineEdge))
    (hwf : ∀ p ∈ pages, (p.map (fun e => e.nodeId)).Nodup)
    (hne : pages ≠ []) :
    mergePages pages = some (dedupById [] pages.flatten) ∧
    (dedupById [] pages.flatten).length
      = ((pages.flatten.map (fun e => e.nodeId)).toFinset).card := by
  refine ⟨?_, length_dedupById_nil pages.flatten⟩
  cases pages with
  | nil => exact absurd rfl hne
  | cons p ps =>
    show ps.foldl (fun acc q => merge_timeline_data acc (some q)) (some p) = _
    rw [mergePages_from_some ps p]
    rw [List.flatten_cons, dedupById_append p ps.flatten []]
    rw [dedupById_eq_self p [] (by simp) (hwf p (by simp)), List.append_nil]

/-- Witness for C1, on the spec's scenario: pages `[{id 1}, {id 2}]` then
`[{id 2}, {id 3}]` merge to `[{id 1}, {id 2}, {id 3}]` with count 3. -/
theorem mergePages_dedups_witness :
    mergePages [[⟨1, 0⟩, ⟨2, 0⟩], [⟨2, 1⟩, ⟨3, 0⟩]]
        = some [⟨1, 0⟩, ⟨2, 0⟩, ⟨3, 0⟩] ∧
    (dedupById [] ([[⟨1, 0⟩, ⟨2, 0⟩], [⟨2, 1⟩, ⟨3, 0⟩]] : List (List TimelineEdge)).flatten).length = 3 := by
  have h := mergePages_dedups [[⟨1, 0⟩, ⟨2, 0⟩], [⟨2, 1⟩, ⟨3, 0⟩]]
    (by decide) (by decide)
  refine ⟨?_, ?_⟩
  · rw [h.1]; decide
  · rw [h.2]; decide

/-- A parsed GraphQL response body: whether `json.loads` produced a dict, and
the keys of its `data` field (`body.get("data", {})`; a missing or non-dict
`data` field contributes no keys). -/
structure ResponseBody where
  isDict : Bool
  dataKeys : List String
deriving DecidableEq, Repr

/-- `process_graphql_response(response_body)`: returns the pair
`(profile_info, reel_info)`; each field is set to the whole body when the
corresponding target query name is a key of the body's `data` field. -/
def process_graphql_response (rb : ResponseBody) : Option ResponseBody × Option ResponseBody :=
  if !rb.isDict then (none, none)
  else
    (if TARGET_QUERIES_profile ∈ rb.dataKeys then some rb else none,
     if TARGET_QUERIES_timeline ∈ rb.dataKeys then some rb else none)

/-- Counterexample to C4: a dict body whose `data` field contains BOTH target
query names is tagged as both a profile snapshot and a timeline page, not
classified Unrecognized (both fields `None`) as the claim requires. -/
theorem process_graphql_response_both_keys_not_unrecognized :
    TARGET_QUERIES_profile ∈ (ResponseBody.mk true [TARGET_QUERIES_profile, TARGET_QUERIES_timeline]).dataKeys ∧
    TARGET_QUERIES_timeline ∈ (ResponseBody.mk true [TARGET_QUERIES_profile, TARGET_QUERIES_timeline]).dataKeys ∧
    process_graphql_response (ResponseBody.mk true [TARGET_QUERIES_profile, TARGET_QUERIES_timeline])
      ≠ (none, none) := by
  refine ⟨by decide, by decide, ?_⟩
  decide

/-- C4 (amended): the classifier tags the two output fields independently:
for a dict body, the profile field is set iff the profile query name is a key
of the `data` field, the timeline field is set iff the timeline query name
is; when neither is present (or the body is not a dict) both fields are
`None`. -/
theorem process_graphql_response_fields (rb : ResponseBody) :
    (rb.isDict = false → process_graphql_response rb = (none, none)) ∧
    ((process_graphql_response rb).1 = some rb ↔
        rb.isDict = true ∧ TARGET_QUERIES_profile ∈ rb.dataKeys) ∧
    ((process_graphql_response rb).2 = some rb ↔
        rb.isDict = true ∧ TARGET_QUERIES_timeline ∈ rb.dataKeys) ∧
    (rb.isDict = true → TARGET_QUERIES_profile ∉ rb.dataKeys →
        TARGET_QUERIES_timeline ∉ rb.dataKeys →
        process_graphql_response rb = (none, none)) := by
  obtain ⟨d, ks⟩ := rb
  cases d with
  | false => simp [process_graphql_response]
  | true =>
    refine ⟨by simp, ?_, ?_, ?_⟩
    · by_cases hp : TARGET_QUERIES_profile ∈ ks <;>
        simp [process_graphql_response, hp]
    · by_cases ht : TARGET_QUERIES_timeline ∈ ks <;>
        simp [process_graphql_response, ht]
    · intro _ hp ht
      simp [process_graphql_response, hp, ht]

/-- Witness for the amended C4 at concrete bodies: a profile-only body is
tagged profile, a timeline-only body is tagged timeline, a keyless dict body
and a non-dict body are Unrecognized. -/
theorem process_graphql_response_fields_witness :
    (process_graphql_response (ResponseBody.mk true [TARGET_QUERIES_profile])).1
        = some (ResponseBody.mk true [TARGET_QUERIES_profile]) ∧
    (process_graphql_response (ResponseBody.mk true [TARGET_QUERIES_timeline])).2
        = some (ResponseBody.mk true [TARGET_QUERIES_timeline]) ∧
    process_graphql_response (ResponseBody.mk true ["other"]) = (none, none) ∧
    process_graphql_response (ResponseBody.mk false [TARGET_QUERIES_profile]) = (none, none) := by
  refine ⟨?_, ?_, ?_, ?_⟩
  · exact ((process_graphql_response_fields (ResponseBody.mk true [TARGET_QUERIES_profile])).2.1).mpr
      ⟨rfl, by decide⟩
  · exact ((process_graphql_response_fields (ResponseBody.mk true [TARGET_QUERIES_timeline])).2.2.1).mpr
      ⟨rfl, by decide⟩
  · exact ((process_graphql_response_fields (ResponseBody.mk true ["other"])).2.2.2)
      rfl (by decide) (by decide)
  · exact ((process_graphql_response_fields (ResponseBody.mk false [TARGET_QUERIES_profile])).1) rfl

/-- The `data.user` object of a profile snapshot: `is_private` (absent field
raises `KeyError` in the source, modelled as `none`), and the
`edge_followed_by.count` / `edge_owner_to_timeline_media.count` fields
(absent fields default to 0 via `.get`, modelled as `none`). -/
structure UserData where
  is_private : Option Bool
  follower_count : Option Nat
  post_count : Option Nat
deriving DecidableEq, Repr

/-- A profile snapshot body: `none` at `user` models a body in which the
`data`/`user` path is missing. -/
structure ProfileData where
  user : Option UserData
deriving DecidableEq, Repr

/-- `is_private_profile(profile_data)`: `None`/falsy data is private, a
missing `data.user.is_private` path (`KeyError`/`TypeError`) is private,
otherwise the `is_private` flag itself. -/
def is_private_profile (pd : Option ProfileData) : Bool :=
  match pd with
  | none => true
  | some d =>
    match d.user with
    | none => true
    | some u =>
      match u.is_private with
      | none => true
      | some b => b

/- ## Scroll Controller (the while-loop of `scrape_profile`) -/

/-- `MAX_SCROLL_ATTEMPTS` from the source. -/
def MAX_SCROLL_ATTEMPTS : Nat := 15

/-- `target_posts` from the source. -/
def target_posts : Nat := 50

/-- One captured network response, as the inner `for response in responses`
loop sees it: an exception raised while fetching/parsing its body (caught by
the inner `try`, `continue`), a response filtered out by the
`graphql/query`-URL and `requestId` checks, or a parsed GraphQL page. -/
inductive ResponseEvent where
  | classifyError
  | notGraphql
  | page (profile : Option ProfileData) (timeline : Option (List TimelineEdge))
deriving Repr

/-- What one scroll-loop iteration's read of the network log yields:
an exception propagating out of `get_network_responses` (or the iteration
body), caught by the outer `except ... break`, or a batch of events. -/
inductive IterationInput where
  | readError
  | events (rs : List ResponseEvent)
deriving Repr

/-- The loop state of `scrape_profile`'s scroll loop. -/
structure ScrollState where
  scroll_attempts : Nat
  posts_before : Nat
  no_new_posts_count : Nat
  profile_info : Option ProfileData
  reel_info : Option (List TimelineEdge)
deriving Repr

/-- Why the scroll loop stopped. -/
inductive StopReason where
  | targetReached
  | stagnation
  | maxAttempts
  | scrollError
deriving DecidableEq, Repr

/-- The scroll loop's outcome: final accumulation, stop reason, final value
of `scroll_attempts`, and how many loop-body iterations executed. -/
structure LoopResult where
  profile_info : Option ProfileData
  reel_info : Option (List TimelineEdge)
  reason : StopReason
  scroll_attempts : Nat
  itersExecuted : Nat
deriving Repr

/-- Processing one response inside the iteration: a profile payload
overwrites `combined_data["profile_info"]`, a timeline payload is merged
into `combined_data["reel_info"]`; skipped/per-response-failing events
change nothing. -/
def processEvent (st : ScrollState) : ResponseEvent → ScrollState
  | ResponseEvent.classifyError => st
  | ResponseEvent.notGraphql => st
  | ResponseEvent.page p t =>
    let st1 := match p with
      | some pi => { st with profile_info := some pi }
      | none => st
    match t with
    | some tl => { st1 with reel_info := merge_timeline_data st1.reel_info (some tl) }
    | none => st1

/-- The inner `for response in responses` loop. -/
def processEvents (st : ScrollState) (rs : List ResponseEvent) : ScrollState :=
  rs.foldl processEvent st

/-- `len(combined_data["reel_info"][...]["edges"]) if combined_data["reel_info"] else 0`. -/
def postsCount : Option (List TimelineEdge) → Nat
  | some es => es.length
  | none => 0

/-- The scroll loop of `scrape_profile`, with `fuel = MAX_SCROLL_ATTEMPTS -
scroll_attempts` making the `while scroll_attempts < MAX_SCROLL_ATTEMPTS`
condition structural: each continuing iteration increments
`scroll_attempts` and consumes one unit of fuel. `session n` is what
reading the network log yields on the iteration entered with
`scroll_attempts = n`. -/
def scrollLoopAux (session : Nat → IterationInput) : Nat → ScrollState → LoopResult
  | 0, st =>
    { profile_info := st.profile_info, reel_info := st.reel_info,
      reason := StopReason.maxAttempts, scroll_attempts := st.scroll_attempts,
      itersExecuted := 0 }
  | fuel + 1, st =>
    match session st.scroll_attempts with
    | IterationInput.readError =>
      { profile_info := st.profile_info, reel_info := st.reel_info,
        reason := StopReason.scrollError, scroll_attempts := st.scroll_attempts,
        itersExecuted := 1 }
    | IterationInput.events rs =>
      let st1 := processEvents st rs
      let posts_after := postsCount st1.reel_info
      if target_posts ≤ posts_after then
        { profile_info := st1.profile_info, reel_info := st1.reel_info,
          reason := StopReason.targetReached, scroll_attempts := st.scroll_attempts,
          itersExecuted := 1 }
      else if posts_after = st.posts_before then
        if 3 ≤ st.no_new_posts_count + 1 ∧ 30 ≤ posts_after then
          { profile_info := st1.profile_info, reel_info := st1.reel_info,
            reason := StopReason.stagnation, scroll_attempts := st.scroll_attempts,
            itersExecuted := 1 }
        else
          let r := scrollLoopAux session fuel
            { st1 with no_new_posts_count := st.no_new_posts_count + 1,
                       posts_before := st.posts_before,
                       scroll_attempts := st.scroll_attempts + 1 }
          { r with itersExecuted := r.itersExecuted + 1 }
      else
        let r := scrollLoopAux session fuel
          { st1 with no_new_posts_count := 0,
                     posts_before := posts_after,
                     scroll_attempts := st.scroll_attempts + 1 }
        { r with itersExecuted := r.itersExecuted + 1 }

/-- Initial scroll-loop state of `scrape_profile`. -/
def initScrollState : ScrollState :=
  { scroll_attempts := 0, posts_before := 0, no_new_posts_count := 0,
    profile_info := none, reel_info := none }

/-- The whole scroll loop, from the initial state. -/
def scrape_profile_loop (session : Nat → IterationInput) : LoopResult :=
  scrollLoopAux session MAX_SCROLL_ATTEMPTS initScrollState

lemma scrollLoopAux_iters_le (session : Nat → IterationInput) :
    ∀ (fuel : Nat) (st : ScrollState),
      (scrollLoopAux session fuel st).itersExecuted ≤ fuel := by
  intro fuel
  induction fuel with
  | zero => intro st; exact Nat.le_refl 0
  | succ f ih =>
    intro st
    rw [scrollLoopAux]
    cases hs : session st.scroll_attempts with
    | readError => exact Nat.succ_le_succ (Nat.zero_le f)
    | events rs =>
      dsimp only
      split_ifs
      · exact Nat.succ_le_succ (Nat.zero_le f)
      · exact Nat.succ_le_succ (Nat.zero_le f)
      · exact Nat.succ_le_succ (ih _)
      · exact Nat.succ_le_succ (ih _)

/-- C8: for every session (every sequence of network-event batches), the
scroll loop of `scrape_profile` executes at most
`MAX_SCROLL_ATTEMPTS = 15` fetch iterations. -/
theorem scrape_profile_loop_terminates (session : Nat → IterationInput) :
    (scrape_profile_loop session).itersExecuted ≤ MAX_SCROLL_ATTEMPTS :=
  scrollLoopAux_iters_le session MAX_SCROLL_ATTEMPTS initScrollState

/-- C7: from any loop state with two prior consecutive unchanged
evaluations, if the current evaluation's record count again equals the
previous count, is at least the floor of 30, and is below the target of 50,
the loop stops with the stagnation reason (not the max-attempts reason). -/
theorem scroll_stagnation_stops (session : Nat → IterationInput)
    (fuel : Nat) (st : ScrollState) (rs : List ResponseEvent)
    (hread : session st.scroll_attempts = IterationInput.events rs)
    (hnn : st.no_new_posts_count = 2)
    (heq : postsCount (processEvents st rs).reel_info = st.posts_before)
    (hfloor : 30 ≤ postsCount (processEvents st rs).reel_info)
    (htarget : postsCount (processEvents st rs).reel_info < target_posts) :
    (scrollLoopAux session (fuel + 1) st).reason = StopReason.stagnation ∧
    (scrollLoopAux session (fuel + 1) st).reason ≠ StopReason.maxAttempts := by
  have hres : scrollLoopAux session (fuel + 1) st =
      { profile_info := (processEvents st rs).profile_info,
        reel_info := (processEvents st rs).reel_info,
        reason := StopReason.stagnation, scroll_attempts := st.scroll_attempts,
        itersExecuted := 1 } := by
    rw [scrollLoopAux, hread]
    dsimp only
    rw [if_neg (Nat.not_le.mpr htarget), if_pos heq, if_pos ⟨by omega, hfloor⟩]
  rw [hres]
  exact ⟨rfl, by simp⟩

/-- 30 distinct records already accumulated. -/
def edges30 : List TimelineEdge := (List.range 30).map (fun i => ⟨i, 0⟩)

/-- A state two evaluations into a stagnation plateau of 30 records. -/
def stagState : ScrollState :=
  { scroll_attempts := 5, posts_before := 30, no_new_posts_count := 2,
    profile_info := none, reel_info := some edges30 }

/-- A session that keeps delivering empty event batches. -/
def emptySession : Nat → IterationInput := fun _ => IterationInput.events []

/-- Witness for C7: at the concrete stagnating state, the loop stops with
the stagnation reason. -/
theorem scroll_stagnation_stops_witness :
    (scrollLoopAux emptySession 10 stagState).reason = StopReason.stagnation :=
  (scroll_stagnation_stops emptySession 9 stagState [] rfl rfl (by decide)
    (by decide) (by decide)).1

/-- A page of 50 distinct records. -/
def page50 : List TimelineEdge := (List.range 50).map (fun i => ⟨i, 0⟩)

/-- A session whose first read raises, and which would deliver a full target
page on every later iteration. -/
def errorSession : Nat → IterationInput := fun n =>
  if n = 0 then IterationInput.readError
  else IterationInput.events [ResponseEvent.page none (some page50)]

/-- The same session except that the first read succeeds with no events. -/
def recoverSession : Nat → IterationInput := fun n =>
  if n = 0 then IterationInput.events []
  else IterationInput.events [ResponseEvent.page none (some page50)]

/-- Counterexample to C5: an exception raised while reading an iteration's
network events ends scrolling for the WorkItem (one iteration executed, zero
records, scroll-error stop), even though continuing with the next fetch —
as the identical session with a successful first read shows — would have
reached the 50-record target. -/
theorem scroll_readError_ends_loop :
    (scrape_profile_loop errorSession).reason = StopReason.scrollError ∧
    (scrape_profile_loop errorSession).itersExecuted = 1 ∧
    postsCount (scrape_profile_loop errorSession).reel_info = 0 ∧
    (scrape_profile_loop recoverSession).reason = StopReason.targetReached := by
  refine ⟨?_, ?_, ?_, ?_⟩ <;> decide

/-- C5 (amended): an exception raised while classifying an individual
event is caught and that event skipped, contributing nothing to the state —
an iteration whose events all fail classification leaves the record count
unchanged, increments the stagnation counter and continues with the next
fetch — but an exception raised while reading an iteration's event batch
terminates the scroll loop with the accumulation gathered so far. -/
theorem scroll_exception_semantics :
    (∀ (st : ScrollState) (k : Nat),
        processEvents st (List.replicate k ResponseEvent.classifyError) = st) ∧
    (∀ (session : Nat → IterationInput) (fuel : Nat) (st : ScrollState) (k : Nat),
        session st.scroll_attempts
            = IterationInput.events (List.replicate k ResponseEvent.classifyError) →
        postsCount st.reel_info = st.posts_before →
        postsCount st.reel_info < target_posts →
        ¬(3 ≤ st.no_new_posts_count + 1 ∧ 30 ≤ postsCount st.reel_info) →
        scrollLoopAux session (fuel + 1) st
          = { scrollLoopAux session fuel
                { st with no_new_posts_count := st.no_new_posts_count + 1,
                          scroll_attempts := st.scroll_attempts + 1 } with
              itersExecuted :=
                (scrollLoopAux session fuel
                  { st with no_new_posts_count := st.no_new_posts_count + 1,
                            scroll_attempts := st.scroll_attempts + 1 }).itersExecuted + 1 }) ∧
    (∀ (session : Nat → IterationInput) (fuel : Nat) (st : ScrollState),
        session st.scroll_attempts = IterationInput.readError →
        scrollLoopAux session (fuel + 1) st
          = { profile_info := st.profile_info, reel_info := st.reel_info,
              reason := StopReason.scrollError, scroll_attempts := st.scroll_attempts,
              itersExecuted := 1 }) := by
  have hskip : ∀ (st : ScrollState) (k : Nat),
      processEvents st (List.replicate k ResponseEvent.classifyError) = st := by
    intro st k
    induction k with
    | zero => rfl
    | succ n ih => simpa [processEvents, List.replicate_succ] using ih
  refine ⟨hskip, ?_, ?_⟩
  · intro session fuel st k hread heq htarget hnostag
    rw [scrollLoopAux, hread]
    dsimp only
    rw [hskip st k]
    rw [if_neg (Nat.not_le.mpr htarget), if_pos heq, if_neg hnostag]
  · intro session fuel st h
    rw [scrollLoopAux, h]

/-- Witness for the amended C5 at concrete inputs: three failing events
leave the state unchanged; a read error at the initial state stops the loop
immediately with no data. -/
theorem scroll_exception_semantics_witness :
    processEvents initScrollState (List.replicate 3 ResponseEvent.classifyError)
        = initScrollState ∧
    scrollLoopAux errorSession 15 initScrollState
      = { profile_info := none, reel_info := none,
          reason := StopReason.scrollError, scroll_attempts := 0,
          itersExecuted := 1 } :=
  ⟨scroll_exception_semantics.1 initScrollState 3,
   scroll_exception_semantics.2.2 errorSession 14 initScrollState rfl⟩

/- ## save_data and the rate limiter -/

/-- The externally visible effects of one `save_data` call. -/
structure SaveOutcome where
  addedToFailureList : Bool
  failedIncremented : Bool
  savedIncremented : Bool
  doneLogAppended : Bool
  success : Bool
deriving DecidableEq, Repr

/-- `save_data(username, data, url, ...)`: a private (or missing/malformed)
profile snapshot, or an accumulation with neither a profile snapshot nor
timeline data, is recorded as a failure (`no_response_links.append`,
`stats["failed"] += 1`, return `False`); otherwise the profile is saved,
`stats["saved"]` incremented and — on success — the URL appended to the
done file. -/
def save_data (profile_info : Option ProfileData)
    (reel_info : Option (List TimelineEdge)) : SaveOutcome :=
  if is_private_profile profile_info || !(profile_info.isSome || reel_info.isSome) then
    { addedToFailureList := true, failedIncremented := true,
      savedIncremented := false, doneLogAppended := false, success := false }
  else
    { addedToFailureList := false, failedIncremented := false,
      savedIncremented := profile_info.isSome,
      doneLogAppended := profile_info.isSome, success := profile_info.isSome }

/-- C6: a WorkItem whose snapshot is private (including missing or
unreadable) or whose accumulation is empty (no snapshot and no timeline
data) is recorded as a permanent failure — failure list appended, failed
counter incremented, done-log untouched — and every other WorkItem is
recorded as a success with the done-log appended. -/
theorem save_data_outcomes (pd : Option ProfileData)
    (rd : Option (List TimelineEdge)) :
    ((is_private_profile pd = true ∨ (pd = none ∧ rd = none)) →
        save_data pd rd =
          { addedToFailureList := true, failedIncremented := true,
            savedIncremented := false, doneLogAppended := false, success := false }) ∧
    (¬(is_private_profile pd = true ∨ (pd = none ∧ rd = none)) →
        save_data pd rd =
          { addedToFailureList := false, failedIncremented := false,
            savedIncremented := true, doneLogAppended := true, success := true }) := by
  constructor
  · intro h
    have hcond : (is_private_profile pd || !(pd.isSome || rd.isSome)) = true := by
      rcases h with h | ⟨h1, h2⟩
      · simp [h]
      · subst h1; subst h2; simp [is_private_profile]
    rw [save_data, if_pos hcond]
  · intro h
    have hpriv : is_private_profile pd = false := by
      cases hb : is_private_profile pd
      · rfl
      · exact absurd (Or.inl hb) h
    have hpd : pd.isSome = true := by
      cases pd with
      | none => simp [is_private_profile] at hpriv
      | some d => rfl
    rw [save_data, hpriv, hpd]
    simp

/-- Witness for C6: a private snapshot is recorded as a failure with no
done-log entry, and a public snapshot with no timeline data is recorded as
a success with a done-log entry. -/
theorem save_data_outcomes_witness :
    save_data (some ⟨some ⟨some true, none, none⟩⟩) none
      = { addedToFailureList := true, failedIncremented := true,
          savedIncremented := false, doneLogAppended := false, success := false } ∧
    save_data (some ⟨some ⟨some false, none, none⟩⟩) none
      = { addedToFailureList := false, failedIncremented := false,
          savedIncremented := true, doneLogAppended := true, success := true } :=
  ⟨(save_data_outcomes (some ⟨some ⟨some true, none, none⟩⟩) none).1 (Or.inl rfl),
   (save_data_outcomes (some ⟨some ⟨some false, none, none⟩⟩) none).2 (by decide)⟩

/-- The deterministic (non-random) additional-wait component of
`calculate_dynamic_wait_time(profile_data)`: when the `data.user` path is
present, `min(follower_count / 500000 + post_count / 5000, 1.0)` with counts
defaulting to 0; otherwise 0. -/
def calculate_dynamic_wait_additional (pd : Option ProfileData) : ℚ :=
  match pd with
  | some d =>
    match d.user with
    | some u =>
      ((u.follower_count.getD 0 : ℚ) / 500000 + (u.post_count.getD 0 : ℚ) / 5000) ⊓ 1
    | none => 0
  | none => 0

/-- `calculate_dynamic_wait_time` itself: a random base draw in [1, 2] plus
the deterministic additional component. -/
def calculate_dynamic_wait_time (base_wait : ℚ) (pd : Option ProfileData) : ℚ :=
  base_wait + calculate_dynamic_wait_additional pd

/-- A snapshot carrying explicit follower and post counts. -/
def profileWithCounts (fc pc : Nat) : Option ProfileData :=
  some ⟨some ⟨some false, some fc, some pc⟩⟩

/-- C9: for a snapshot carrying follower and post counts, the deterministic
component of the dynamic wait equals
`min(followerCount/500000 + postCount/5000, 1)`, never exceeds 1, and is
monotonically non-decreasing in both counts. -/
theorem calculate_dynamic_wait_additional_spec (fc pc fc' pc' : Nat) :
    calculate_dynamic_wait_additional (profileWithCounts fc pc)
        = min ((fc : ℚ) / 500000 + (pc : ℚ) / 5000) 1 ∧
    calculate_dynamic_wait_additional (profileWithCounts fc pc) ≤ 1 ∧
    (fc ≤ fc' → pc ≤ pc' →
        calculate_dynamic_wait_additional (profileWithCounts fc pc)
          ≤ calculate_dynamic_wait_additional (profileWithCounts fc' pc')) := by
  refine ⟨rfl, min_le_right _ _, ?_⟩
  intro hf hp
  show min ((fc : ℚ) / 500000 + (pc : ℚ) / 5000) 1
      ≤ min ((fc' : ℚ) / 500000 + (pc' : ℚ) / 5000) 1
  have hf' : (fc : ℚ) ≤ (fc' : ℚ) := by exact_mod_cast hf
  have hp' : (pc : ℚ) ≤ (pc' : ℚ) := by exact_mod_cast hp
  gcongr

/-- Witness for C9: concrete counts 250000 followers / 2500 posts give
additional wait 0.5 + 0.5 = 1, which both equals the clamped formula and is
bounded by 1, and growing both counts does not decrease the wait. -/
theorem calculate_dynamic_wait_additional_spec_witness :
    calculate_dynamic_wait_additional (profileWithCounts 250000 2500)
        = min ((250000 : ℚ) / 500000 + (2500 : ℚ) / 5000) 1 ∧
    calculate_dynamic_wait_additional (profileWithCounts 250000 2500) ≤ 1 ∧
    calculate_dynamic_wait_additional (profileWithCounts 250000 2500)
      ≤ calculate_dynamic_wait_additional (profileWithCounts 300000 9000) := by
  have h := calculate_dynamic_wait_additional_spec 250000 2500 300000 9000
  exact ⟨h.1, h.2.1, h.2.2 (by decide) (by decide)⟩

/- ## Progress store: load_urls, save_url_to_done_file -/

/-- `str.strip()` on the character list: drop leading and trailing
whitespace. -/
def stripChars (cs : List Char) : List Char :=
  ((cs.dropWhile Char.isWhitespace).reverse.dropWhile Char.isWhitespace).reverse

/-- `str.rstrip('/')` on the character list: drop trailing `'/'`
characters. -/
def rstripSlash (cs : List Char) : List Char :=
  (cs.reverse.dropWhile (fun c => c == '/')).reverse

/-- `url.strip().rstrip('/')`: trim whitespace, then strip trailing
path separators. -/
def normalize (url : String) : String :=
  String.mk (rstripSlash (stripChars url.data))

/-- `load_urls()`: reads the input file (a failed read returns `([], [])`),
reads the done file when present (a failed or absent read leaves the
completed set empty), normalizes the done URLs, and keeps every input URL
whose normalized form is not in the normalized completed set. Returns
`(urls_to_process, done_urls)`. -/
def load_urls (inputRead : Option (List String)) (doneRead : Option (List String)) :
    List String × List String :=
  match inputRead with
  | none => ([], [])
  | some input_urls =>
    let done_urls : List String :=
      match doneRead with
      | none => []
      | some raw => raw.map normalize
    let urls_to_process :=
      input_urls.filter (fun url => decide (normalize url ∉ done_urls))
    (urls_to_process, done_urls)

lemma length_filter_comp {α β : Type} (f : α → β) (p : β → Bool) (l : List α) :
    (l.filter (fun a => p (f a))).length = ((l.map f).filter p).length := by
  induction l with
  | nil => rfl
  | cons a t ih =>
    by_cases h : p (f a) = true <;>
      simp [List.filter_cons, List.map_cons, h, ih]

/-- C3: the pending list returned by `load_urls` consists exactly of the
input entries whose normalized form is not in the normalized completed set
(so it is disjoint, after normalization, from the completed set); an
unreadable or missing done file makes the whole input pending; and when the
input normalizes without collisions and the completed entries all come from
the input, exactly `|input| - |done|` entries are re-queued. -/
theorem load_urls_spec (inp dr : List String) (doneRead : Option (List String)) :
    (∀ u, u ∈ (load_urls (some inp) doneRead).1 ↔
        u ∈ inp ∧ normalize u ∉ (load_urls (some inp) doneRead).2) ∧
    load_urls (some inp) none = (inp, []) ∧
    ((inp.map normalize).Nodup → (dr.map normalize).Nodup →
      (∀ x ∈ dr.map normalize, x ∈ inp.map normalize) →
      (load_urls (some inp) (some dr)).1.length + dr.length = inp.length) := by
  refine ⟨?_, ?_, ?_⟩
  · intro u
    cases doneRead with
    | none => simp [load_urls, List.mem_filter]
    | some raw => simp [load_urls, List.mem_filter]
  · simp [load_urls, List.filter_eq_self]
  · intro hinp hdr hsub
    have hlen := List.length_eq_length_filter_add
      (l := inp) (fun u => decide (normalize u ∉ dr.map normalize))
    have hpend : (load_urls (some inp) (some dr)).1
        = inp.filter (fun u => decide (normalize u ∉ dr.map normalize)) := rfl
    have hcongr : inp.filter (fun u => !(decide (normalize u ∉ dr.map normalize)))
        = inp.filter (fun u => decide (normalize u ∈ dr.map normalize)) := by
      apply List.filter_congr
      intro u _
      by_cases h : normalize u ∈ dr.map normalize <;> simp [h]
    have hcomp : (inp.filter (fun u => decide (normalize u ∈ dr.map normalize))).length
        = ((inp.map normalize).filter (fun x => decide (x ∈ dr.map normalize))).length :=
      length_filter_comp normalize (fun x => decide (x ∈ dr.map normalize)) inp
    have hperm : ((inp.map normalize).filter (fun x => decide (x ∈ dr.map normalize))).length
        = (dr.map normalize).length := by
      apply List.Perm.length_eq
      rw [List.perm_ext_iff_of_nodup (hinp.filter _) hdr]
      intro x
      simp only [List.mem_filter, decide_eq_true_eq]
      constructor
      · exact fun h => h.2
      · exact fun h => ⟨hsub x h, h⟩
    rw [hpend]
    rw [hcongr, hcomp, hperm, List.length_map] at hlen
    omega

/-- Witness for C3 at a concrete input list with cosmetic variations:
`load_urls` of five URLs with two completed re-queues exactly the other
three, and a missing done file re-queues everything. -/
theorem load_urls_spec_witness :
    ("https://a.example/x/" ∈ (load_urls (some ["https://a.example/x/", "https://a.example/y",
        " https://a.example/z/", "https://a.example/w", "https://a.example/v"])
        (some ["https://a.example/x", "https://a.example/z/ "])).1
      ↔ ("https://a.example/x/" ∈ (["https://a.example/x/", "https://a.example/y",
        " https://a.example/z/", "https://a.example/w", "https://a.example/v"] : List String) ∧
        normalize "https://a.example/x/" ∉ (load_urls (some ["https://a.example/x/", "https://a.example/y",
        " https://a.example/z/", "https://a.example/w", "https://a.example/v"])
        (some ["https://a.example/x", "https://a.example/z/ "])).2)) ∧
    (load_urls (some ["https://a.example/x/", "https://a.example/y",
        " https://a.example/z/", "https://a.example/w", "https://a.example/v"])
        (some ["https://a.example/x", "https://a.example/z/ "])).1.length + 2 = 5 ∧
    load_urls (some ["https://a.example/x/"]) none = (["https://a.example/x/"], []) := by
  have h := load_urls_spec
    ["https://a.example/x/", "https://a.example/y", " https://a.example/z/",
     "https://a.example/w", "https://a.example/v"]
    ["https://a.example/x", "https://a.example/z/ "]
    (some ["https://a.example/x", "https://a.example/z/ "])
  exact ⟨h.1 "https://a.example/x/",
    h.2.2 (by decide) (by decide) (by decide),
    (load_urls_spec ["https://a.example/x/"] [] none).2.1⟩

/-- A row of the input CSV: the `url` column plus the rest of the row as an
opaque payload. -/
structure InputRow where
  url : String
  payload : Nat
deriving DecidableEq, Repr

/-- `remove_url_from_input_file(url)`: keep exactly the rows whose `url`
column differs from the given URL (`input_df[input_df['url'] != url]`)
and write them back. -/
def remove_url_from_input_file (url : String) (rows : List InputRow) : List InputRow :=
  rows.filter (fun r => decide (r.url ≠ url))

/-- `save_url_to_done_file(url)`: create the done file with a `url` header
line when missing, append the URL as a new line, and remove the URL from the
input file. Returns the new (done-file lines, input rows). -/
def save_url_to_done_file (url : String) (doneFile : Option (List String))
    (inputRows : List InputRow) : List String × List InputRow :=
  match doneFile with
  | none => (["url"] ++ [url], remove_url_from_input_file url inputRows)
  | some ls => (ls ++ [url], remove_url_from_input_file url inputRows)

/-- C10: marking a URL complete appends it as a new line to the done file
(creating the file with its header when missing) and rewrites the input
file with exactly the rows whose `url` column equals that URL removed,
keeping all other rows unchanged and in order. -/
theorem save_url_to_done_file_spec (url : String) (doneFile : Option (List String))
    (rows : List InputRow) :
    (∀ ls, doneFile = some ls → (save_url_to_done_file url doneFile rows).1 = ls ++ [url]) ∧
    (doneFile = none → (save_url_to_done_file url doneFile rows).1 = ["url", url]) ∧
    (∀ r, r ∈ (save_url_to_done_file url doneFile rows).2 ↔ r ∈ rows ∧ r.url ≠ url) ∧
    (save_url_to_done_file url doneFile rows).2.Sublist rows := by
  refine ⟨?_, ?_, ?_, ?_⟩
  · intro ls h
    subst h
    rfl
  · intro h
    subst h
    rfl
  · intro r
    cases doneFile <;>
      simp [save_url_to_done_file, remove_url_from_input_file, List.mem_filter]
  · cases doneFile <;>
      exact List.filter_sublist _

/-- Witness for C10: completing a concrete URL appends it to a two-line done
file and drops exactly its row from a three-row input file. -/
theorem save_url_to_done_file_spec_witness :
    (save_url_to_done_file "https://a.example/x" (some ["url", "https://a.example/q"])
        [⟨"https://a.example/x", 1⟩, ⟨"https://a.example/y", 2⟩, ⟨"https://a.example/x", 3⟩]).1
      = ["url", "https://a.example/q", "https://a.example/x"] ∧
    ((⟨"https://a.example/y", 2⟩ : InputRow) ∈
        (save_url_to_done_file "https://a.example/x" (some ["url", "https://a.example/q"])
          [⟨"https://a.example/x", 1⟩, ⟨"https://a.example/y", 2⟩, ⟨"https://a.example/x", 3⟩]).2
      ↔ ((⟨"https://a.example/y", 2⟩ : InputRow) ∈
          ([⟨"https://a.example/x", 1⟩, ⟨"https://a.example/y", 2⟩,
            ⟨"https://a.example/x", 3⟩] : List InputRow) ∧
          ("https://a.example/y" : String) ≠ "https://a.example/x")) := by
  have h := save_url_to_done_file_spec "https://a.example/x" (some ["url", "https://a.example/q"])
    [⟨"https://a.example/x", 1⟩, ⟨"https://a.example/y", 2⟩, ⟨"https://a.example/x", 3⟩]
  exact ⟨h.1 ["url", "https://a.example/q"] rfl, h.2.2.1 ⟨"https://a.example/y", 2⟩⟩

end InstaScraper
